import Mathlib

/-!
Verification of the YAML Pod-manifest validator. The document tree, the
scalar checkers and the section validators are translated from the Go
sources: namespace `P001` embeds the richest variant (multi-document,
object-shaped `os`), namespace `MainGo` embeds the parallel validator in
`main.go`, and namespace `P000` embeds the reduced probe/resources
variant. Machine integers follow Go `strconv.Atoi` on a 64-bit platform.
-/

/-- Document tree node, as produced by the external YAML parser: a tagged
variant over mapping / sequence / scalar, each carrying its 1-based source
line; a scalar carries its literal text and the parser-inferred kind tag. -/
inductive Node where
  | mapping (line : Nat) (entries : List (Node × Node))
  | sequence (line : Nat) (items : List Node)
  | scalar (line : Nat) (tag : String) (val : String)

/-- Source line of a node. -/
def Node.line : Node → Nat
  | .mapping l _ => l
  | .sequence l _ => l
  | .scalar l _ _ => l

/-- The `Value` field of a yaml.Node: the literal text for scalars, empty
for mappings and sequences. -/
def Node.value : Node → String
  | .scalar _ _ v => v
  | _ => ""

/-- The `Tag` field of a yaml.Node: the resolved kind tag. -/
def Node.tag : Node → String
  | .scalar _ t _ => t
  | .mapping _ _ => "!!map"
  | .sequence _ _ => "!!seq"

/-- Whether the node's Kind is MappingNode. -/
def Node.isMapping : Node → Bool
  | .mapping _ _ => true
  | _ => false

/-- Whether the node's Kind is SequenceNode. -/
def Node.isSequence : Node → Bool
  | .sequence _ _ => true
  | _ => false

/-- Whether the node's Kind is ScalarNode. -/
def Node.isScalar : Node → Bool
  | .scalar _ _ _ => true
  | _ => false

/-- Formatting of one diagnostic, `fmt.Sprintf("%s:%d %s", filename, line, msg)`. -/
def fmtDiag (f : String) (l : Nat) (m : String) : String :=
  f ++ ":" ++ toString l ++ " " ++ m

/-- ASCII decimal digit, the character class `[0-9]`. -/
def digitChar (c : Char) : Bool := decide ('0' ≤ c) && decide (c ≤ '9')

/-- Numeric value of a digit character. -/
def digitVal (c : Char) : Nat := c.toNat - '0'.toNat

/-- Decimal digits to a number, failing on any non-digit. -/
def digitsToNat : List Char → Nat → Option Nat
  | [], acc => some acc
  | c :: cs, acc => if digitChar c then digitsToNat cs (acc * 10 + digitVal c) else none

/-- Value of a non-empty all-digit character list. -/
def natOfDigitList : List Char → Option Nat
  | [] => none
  | l => digitsToNat l 0

/-- Value of a non-empty all-digit string. -/
def natOfDigits (s : String) : Option Nat := natOfDigitList s.data

/-- Largest Go `int` on a 64-bit platform. -/
def int64Max : Nat := 9223372036854775807

/-- Go `strconv.Atoi`: optional sign, decimal digits, error (here `none`)
on empty input, a non-digit, or 64-bit overflow. -/
def atoi (s : String) : Option Int :=
  match s.data with
  | [] => none
  | c :: cs =>
    if c = '-' then
      match natOfDigitList cs with
      | some n => if n ≤ int64Max + 1 then some (-(n : Int)) else none
      | none => none
    else if c = '+' then
      match natOfDigitList cs with
      | some n => if n ≤ int64Max then some (n : Int) else none
      | none => none
    else
      match natOfDigitList (c :: cs) with
      | some n => if n ≤ int64Max then some (n : Int) else none
      | none => none

/-- Go `strings.HasPrefix s p`. -/
def goHasPfx (s p : String) : Bool := p.data.isPrefixOf s.data

/-- Lowercase-alphanumeric character, the class `[a-z0-9]`. -/
def isSnakeChar (c : Char) : Bool :=
  (decide ('a' ≤ c) && decide (c ≤ 'z')) || digitChar c

/-- Segments of a character list split at every underscore. -/
def snakeSegs : List Char → List (List Char)
  | [] => [[]]
  | c :: cs =>
    let r := snakeSegs cs
    if c = '_' then [] :: r
    else
      match r with
      | s :: rest => (c :: s) :: rest
      | [] => [[c]]

/-- Full match of the regex `^[a-z0-9]+(_[a-z0-9]+)*$`: non-empty
lowercase-alphanumeric segments separated by single underscores. -/
def snakeCase (s : String) : Bool :=
  (snakeSegs s.data).all (fun seg => !seg.isEmpty && seg.all isSnakeChar)

/-- Full match of `^[0-9]+(u1|u2|...)$` for the given unit suffixes: one
or more digits immediately followed by exactly one allowed unit. -/
def memMatch (units : List String) (s : String) : Bool :=
  units.any (fun u =>
    u.data.isSuffixOf s.data &&
    (let pre := s.data.take (s.data.length - u.data.length)
     !pre.isEmpty && pre.all digitChar))

/-- Unit vocabulary of the richest variant's memory regex `^[0-9]+(Ki|Mi|Gi)$`. -/
def memUnits1 : List String := ["Ki", "Mi", "Gi"]

/-- Unit vocabulary of main.go's memory regex
`^[0-9]+(?:Ki|Mi|Gi|Ti|Pi|Ei|K|M|G|T|P|E)$`. -/
def memUnitsMain : List String :=
  ["Ki", "Mi", "Gi", "Ti", "Pi", "Ei", "K", "M", "G", "T", "P", "E"]

/-- The fixed registry image reference must start with. -/
def imgPfx : String := "registry.bigbrother.io/"

namespace P001

/-- Linear first-match lookup over a mapping's (key, value) entry list:
the key node must be a scalar whose text equals the key. -/
def lookupKey : List (Node × Node) → String → Option Node
  | [], _ => none
  | (k, v) :: rest, key =>
    if k.isScalar && k.value == key then some v else lookupKey rest key

/-- getMappingValue: value node for a key in a mapping node, `none` when
the node is not a mapping or the key is missing. -/
def getMappingValue (node : Node) (key : String) : Option Node :=
  match node with
  | .mapping _ entries => lookupKey entries key
  | _ => none

/-- validateMappingField: look the field up; when absent and required,
emit "`field` is required" (no line in this variant's message); return
the value node for the caller's content checks. -/
def validateMappingField (parent : Node) (field : String) (required : Bool)
    (f : String) : Option Node × List String :=
  match getMappingValue parent field with
  | some v => (some v, [])
  | none => (none, if required then [f ++ ": " ++ field ++ " is required"] else [])

/-- validateAPIVersion: a present apiVersion must be a scalar equal to "v1". -/
def validateAPIVersion : Option Node → String → List String
  | none, _ => []
  | some n, f =>
    if !n.isScalar then [fmtDiag f n.line "apiVersion must be string"]
    else if n.value ≠ "v1" then
      [fmtDiag f n.line ("apiVersion has unsupported value '" ++ n.value ++ "'")]
    else []

/-- validateKind: a present kind must be a scalar equal to "Pod". -/
def validateKind : Option Node → String → List String
  | none, _ => []
  | some n, f =>
    if !n.isScalar then [fmtDiag f n.line "kind must be string"]
    else if n.value ≠ "Pod" then
      [fmtDiag f n.line ("kind has unsupported value '" ++ n.value ++ "'")]
    else []

/-- One labels entry: both the key node and the value node must be scalars. -/
def checkLabelPair (f : String) (kv : Node × Node) : List String :=
  (if !kv.1.isScalar then [fmtDiag f kv.1.line "labels key must be string"] else []) ++
  (if !kv.2.isScalar then [fmtDiag f kv.2.line "labels value must be string"] else [])

/-- metadata.name content check: scalar and non-empty. -/
def checkMetaName : Option Node → String → List String
  | none, _ => []
  | some n, f =>
    if !n.isScalar then [fmtDiag f n.line "name must be string"]
    else if n.value = "" then [fmtDiag f n.line "name has invalid format ''"]
    else []

/-- metadata.namespace content check: scalar when present. -/
def checkMetaNamespace : Option Node → String → List String
  | none, _ => []
  | some n, f => if !n.isScalar then [fmtDiag f n.line "namespace must be string"] else []

/-- metadata.labels content check: a mapping whose keys and values are scalars. -/
def checkMetaLabels : Option Node → String → List String
  | none, _ => []
  | some n, f =>
    match n with
    | .mapping _ entries => entries.flatMap (checkLabelPair f)
    | _ => [fmtDiag f n.line "labels must be object"]

/-- validateMetadata: metadata must be an object; required name, optional
namespace and labels, presence errors first, then content checks. -/
def validateMetadata : Option Node → String → List String
  | none, _ => []
  | some meta, f =>
    if !meta.isMapping then [fmtDiag f meta.line "metadata must be object"]
    else
      let nr := validateMappingField meta "name" true f
      let sr := validateMappingField meta "namespace" false f
      let lr := validateMappingField meta "labels" false f
      nr.2 ++ sr.2 ++ lr.2 ++
      checkMetaName nr.1 f ++ checkMetaNamespace sr.1 f ++ checkMetaLabels lr.1 f

/-- Resolved os name: the scalar's text, or the mapping's scalar `name`
text; empty when neither yields a name. -/
def osNameOf (osNode : Node) : String :=
  match osNode with
  | .scalar _ _ v => v
  | .mapping _ _ =>
    match getMappingValue osNode "name" with
    | some n => if n.isScalar then n.value else ""
    | none => ""
  | _ => ""

/-- Structural diagnostics of the os field: mapping form needs a scalar
`name`; any other non-scalar form is rejected. -/
def osStructErrs (osNode : Node) (f : String) : List String :=
  match osNode with
  | .scalar _ _ _ => []
  | .mapping _ _ =>
    match getMappingValue osNode "name" with
    | none => [fmtDiag f osNode.line "os.name is required"]
    | some n => if !n.isScalar then [fmtDiag f n.line "os.name must be string"] else []
  | .sequence _ _ => [fmtDiag f osNode.line "os must be string or object"]

/-- Line the unsupported-os diagnostic is attributed to: the `name` value's
line for the mapping form, the os node's line otherwise. -/
def osErrLine (osNode : Node) : Nat :=
  match osNode with
  | .mapping _ _ =>
    match getMappingValue osNode "name" with
    | some n => n.line
    | none => osNode.line
  | _ => osNode.line

/-- The spec.os block: structural checks, then the enum check on the
resolved name, skipped when the resolved name is empty. -/
def checkOS (osNode : Node) (f : String) : List String :=
  osStructErrs osNode f ++
  (let nm := osNameOf osNode
   if nm ≠ "" ∧ nm ≠ "linux" ∧ nm ≠ "windows" then
     [fmtDiag f (osErrLine osNode) ("os has unsupported value '" ++ nm ++ "'")]
   else [])

/-- containerPort content check: scalar, integer-kind tag, and in range
1..65535 when the text parses as a machine integer. -/
def checkContainerPort : Option Node → String → List String
  | none, _ => []
  | some n, f =>
    if !n.isScalar then [fmtDiag f n.line "containerPort must be int"]
    else if n.tag ≠ "!!int" then [fmtDiag f n.line "containerPort must be int"]
    else
      match atoi n.value with
      | some v =>
        if v < 1 ∨ v > 65535 then [fmtDiag f n.line "containerPort value out of range"]
        else []
      | none => []

/-- protocol content check: scalar equal to TCP or UDP. -/
def checkProtocol : Option Node → String → List String
  | none, _ => []
  | some n, f =>
    if !n.isScalar then [fmtDiag f n.line "protocol must be string"]
    else if n.value ≠ "TCP" ∧ n.value ≠ "UDP" then
      [fmtDiag f n.line ("protocol has unsupported value '" ++ n.value ++ "'")]
    else []

/-- One ports entry: an object with required containerPort and optional protocol. -/
def checkPortEntry (entry : Node) (f : String) : List String :=
  match entry with
  | .mapping _ _ =>
    let cr := validateMappingField entry "containerPort" true f
    cr.2 ++ checkContainerPort cr.1 f ++ checkProtocol (getMappingValue entry "protocol") f
  | _ => [fmtDiag f entry.line "ports entry must be object"]

/-- validatePorts: the ports value must be an array; each entry is checked
and a non-object entry is skipped after one diagnostic. -/
def validatePorts (portsNode : Node) (f : String) : List String :=
  match portsNode with
  | .sequence _ items => items.flatMap (fun e => checkPortEntry e f)
  | _ => [fmtDiag f portsNode.line "ports must be array"]

/-- httpGet.path content check: scalar starting with "/". -/
def checkProbePath : Option Node → String → List String
  | none, _ => []
  | some n, f =>
    if !n.isScalar then [fmtDiag f n.line "path must be string"]
    else if !(goHasPfx n.value "/") then
      [fmtDiag f n.line ("path has invalid format '" ++ n.value ++ "'")]
    else []

/-- httpGet.port content check: scalar, integer-kind tag, and in range
1..65535 when the text parses as a machine integer. -/
def checkProbePort : Option Node → String → List String
  | none, _ => []
  | some n, f =>
    if !n.isScalar then [fmtDiag f n.line "port must be int"]
    else if n.tag ≠ "!!int" then [fmtDiag f n.line "port must be int"]
    else
      match atoi n.value with
      | some v =>
        if v < 1 ∨ v > 65535 then [fmtDiag f n.line "port value out of range"]
        else []
      | none => []

/-- validateProbe: the probe must be an object holding a required httpGet
object with required path and port. -/
def validateProbe (probeNode : Node) (fieldName f : String) : List String :=
  match probeNode with
  | .mapping _ _ =>
    match getMappingValue probeNode "httpGet" with
    | none => [fmtDiag f probeNode.line "httpGet is required"]
    | some hg =>
      if !hg.isMapping then [fmtDiag f hg.line "httpGet must be object"]
      else
        let pr := validateMappingField hg "path" true f
        let qr := validateMappingField hg "port" true f
        pr.2 ++ qr.2 ++ checkProbePath pr.1 f ++ checkProbePort qr.1 f
  | _ => [fmtDiag f probeNode.line (fieldName ++ " must be object")]

/-- cpu content check: scalar, integer-kind tag, non-negative when the
text parses as a machine integer. -/
def checkCpu : Option Node → String → List String
  | none, _ => []
  | some n, f =>
    if !n.isScalar then [fmtDiag f n.line "cpu must be int"]
    else if n.tag ≠ "!!int" then [fmtDiag f n.line "cpu must be int"]
    else
      match atoi n.value with
      | some v => if v < 0 then [fmtDiag f n.line "cpu value out of range"] else []
      | none => []

/-- memory content check: scalar matching the `^[0-9]+(Ki|Mi|Gi)$` pattern. -/
def checkMemory : Option Node → String → List String
  | none, _ => []
  | some n, f =>
    if !n.isScalar then [fmtDiag f n.line "memory must be string"]
    else if !(memMatch memUnits1 n.value) then
      [fmtDiag f n.line ("memory has invalid format '" ++ n.value ++ "'")]
    else []

/-- checkResourceValues: cpu and memory checks of one limits/requests section. -/
def checkResourceValues (resNode : Node) (f : String) : List String :=
  checkCpu (getMappingValue resNode "cpu") f ++
  checkMemory (getMappingValue resNode "memory") f

/-- Run a validator on an optional node, the Go `if node != nil` guard. -/
def runOpt (o : Option Node) (g : Node → List String) : List String :=
  match o with
  | none => []
  | some p => g p

/-- container.name content check: scalar matching the snake_case identifier rule. -/
def checkContainerName : Option Node → String → List String
  | none, _ => []
  | some n, f =>
    if !n.isScalar then [fmtDiag f n.line "name must be string"]
    else if !(snakeCase n.value) then
      [fmtDiag f n.line ("name has invalid format '" ++ n.value ++ "'")]
    else []

/-- Image reference format of the richest variant:
`len(img) > len(prefix) && strings.HasPrefix(img, prefix) &&
strings.Contains(img[len(prefix):], ":")`. -/
def imageFormatOk (img : String) : Bool :=
  decide (imgPfx.data.length < img.data.length) && goHasPfx img imgPfx &&
  (img.data.drop imgPfx.data.length).contains ':'

/-- container.image content check: scalar passing the image format rule. -/
def checkImage : Option Node → String → List String
  | none, _ => []
  | some n, f =>
    if !n.isScalar then [fmtDiag f n.line "image must be string"]
    else if !(imageFormatOk n.value) then
      [fmtDiag f n.line ("image has invalid format '" ++ n.value ++ "'")]
    else []

/-- The container's resources section: an object whose limits and requests
sub-objects, when present, are checked for cpu and memory. -/
def checkResourcesSection : Option Node → String → List String
  | none, _ => []
  | some r, f =>
    if !r.isMapping then [fmtDiag f r.line "resources must be object"]
    else
      (match getMappingValue r "limits" with
       | none => []
       | some l =>
         if !l.isMapping then [fmtDiag f l.line "limits must be object"]
         else checkResourceValues l f) ++
      (match getMappingValue r "requests" with
       | none => []
       | some q =>
         if !q.isMapping then [fmtDiag f q.line "requests must be object"]
         else checkResourceValues q f)

/-- validateContainer: the container must be an object; required name,
image and resources, optional ports and probes; presence errors come in
lookup order (name, image, resources), then content checks in field order. -/
def validateContainer (c : Node) (f : String) : List String :=
  match c with
  | .mapping _ _ =>
    let nr := validateMappingField c "name" true f
    let ir := validateMappingField c "image" true f
    let portsNode := getMappingValue c "ports"
    let rdNode := getMappingValue c "readinessProbe"
    let lvNode := getMappingValue c "livenessProbe"
    let rr := validateMappingField c "resources" true f
    nr.2 ++ ir.2 ++ rr.2 ++
    checkContainerName nr.1 f ++ checkImage ir.1 f ++
    runOpt portsNode (fun p => validatePorts p f) ++
    runOpt rdNode (fun p => validateProbe p "readinessProbe" f) ++
    runOpt lvNode (fun p => validateProbe p "livenessProbe" f) ++
    checkResourcesSection rr.1 f
  | _ => [fmtDiag f c.line "container must be object"]

/-- validateSpec: spec must be an object; optional os, required containers
array with at least one element, each element validated. -/
def validateSpec : Option Node → String → List String
  | none, _ => []
  | some s, f =>
    if !s.isMapping then [fmtDiag f s.line "spec must be object"]
    else
      runOpt (getMappingValue s "os") (fun osNode => checkOS osNode f) ++
      (match getMappingValue s "containers" with
       | none => [f ++ ": containers is required"]
       | some c =>
         match c with
         | .sequence cl items =>
           (if items.isEmpty then [fmtDiag f cl "containers must not be empty"] else []) ++
           items.flatMap (fun e => validateContainer e f)
         | _ => [fmtDiag f c.line "containers must be array"])

/-- validateDocument: the document must be a mapping with required
apiVersion, kind, metadata and spec; presence errors first, then each
field's content validator. -/
def validateDocument (doc : Node) (f : String) : List String :=
  match doc with
  | .mapping _ _ =>
    let ar := validateMappingField doc "apiVersion" true f
    let kr := validateMappingField doc "kind" true f
    let mr := validateMappingField doc "metadata" true f
    let sr := validateMappingField doc "spec" true f
    ar.2 ++ kr.2 ++ mr.2 ++ sr.2 ++
    validateAPIVersion ar.1 f ++ validateKind kr.1 f ++
    validateMetadata mr.1 f ++ validateSpec sr.1 f
  | _ => [fmtDiag f doc.line "top-level document must be a mapping (object)"]

/-- The driver's per-document loop: every document of a multi-document
file is validated into the shared sink in order. -/
def validateAll (docs : List Node) (f : String) : List String :=
  docs.flatMap (fun d => validateDocument d f)

end P001

namespace MainGo

/-- findMapKey of main.go: linear first-match lookup returning both the
key node and the value node; the key node's `Value` text (empty for
non-scalars) is compared, with no kind requirement on the key. -/
def findEntry : List (Node × Node) → String → Option (Node × Node)
  | [], _ => none
  | (k, v) :: rest, key => if k.value == key then some (k, v) else findEntry rest key

/-- findMapKey over a node: `none` when the node is not a mapping. -/
def findMapKey (node : Node) (key : String) : Option (Node × Node) :=
  match node with
  | .mapping _ entries => findEntry entries key
  | _ => none

/-- Index at which the first `':'` stands in a character list. -/
def firstColon : List Char → Option Nat
  | [] => none
  | c :: cs => if c = ':' then some 0 else (firstColon cs).map (· + 1)

/-- containsColonAfterPrefix of main.go: true when a colon stands after
the prefix and the first such colon is neither the first nor the last
character of the remainder. -/
def containsColonAfterPfx (s pfx : String) : Bool :=
  if s.data.length ≤ pfx.data.length then false
  else
    let rest := s.data.drop pfx.data.length
    match firstColon rest with
    | none => false
    | some i => decide (0 < i) && decide (i ≠ rest.length - 1)

/-- The containerPort check of main.go's port loop: a non-integer-kind
value only fails when its text does not parse as an integer, and the range
check runs whenever the text parses. -/
def checkContainerPort (cpVal : Node) (f : String) : List String :=
  (if cpVal.tag ≠ "!!int" then
     match atoi cpVal.value with
     | none => [fmtDiag f cpVal.line "containerPort must be an integer between 1 and 65535"]
     | some _ => []
   else []) ++
  (match atoi cpVal.value with
   | some v =>
     if v < 1 ∨ v > 65535 then [fmtDiag f cpVal.line "containerPort must be between 1 and 65535"]
     else []
   | none => [])

/-- The cpu check of main.go's checkResourceValues: required non-empty
value whose text must parse as a non-negative integer. -/
def checkCpuField (resNode : Node) (f resType : String) : List String :=
  match findMapKey resNode "cpu" with
  | none => [fmtDiag f resNode.line ("resources." ++ resType ++ ".cpu is required")]
  | some (ck, cv) =>
    if cv.value = "" then [fmtDiag f ck.line ("resources." ++ resType ++ ".cpu is required")]
    else
      match atoi cv.value with
      | none => [fmtDiag f cv.line ("resources." ++ resType ++ ".cpu must be a non-negative integer")]
      | some i =>
        if i < 0 then [fmtDiag f cv.line ("resources." ++ resType ++ ".cpu must be a non-negative integer")]
        else []

/-- The memory check of main.go's checkResourceValues: required non-empty
value whose text must match the digits-then-unit pattern. -/
def checkMemoryField (resNode : Node) (f resType : String) : List String :=
  match findMapKey resNode "memory" with
  | none => [fmtDiag f resNode.line ("resources." ++ resType ++ ".memory is required")]
  | some (mk, mv) =>
    if mv.value = "" then [fmtDiag f mk.line ("resources." ++ resType ++ ".memory is required")]
    else if !(memMatch memUnitsMain mv.value) then
      [fmtDiag f mv.line ("resources." ++ resType ++ ".memory must be in format <number><unit> (e.g., 123Mi or 1Gi)")]
    else []

/-- One limits/requests section of main.go: required, must be a mapping,
then cpu and memory checks. -/
def checkResourceSection (resourcesNode : Node) (f resType : String) : List String :=
  match findMapKey resourcesNode resType with
  | none => [fmtDiag f resourcesNode.line ("resources." ++ resType ++ " is required")]
  | some (_, rn) =>
    if !rn.isMapping then [fmtDiag f rn.line ("resources." ++ resType ++ " must be a mapping")]
    else checkCpuField rn f resType ++ checkMemoryField rn f resType

/-- checkResourceValues of main.go: resources must be a mapping with
required limits and requests sections. -/
def checkResourceValues (resourcesNode : Node) (f : String) : List String :=
  if !resourcesNode.isMapping then [fmtDiag f resourcesNode.line "resources must be a mapping"]
  else checkResourceSection resourcesNode f "limits" ++ checkResourceSection resourcesNode f "requests"

end MainGo

namespace P000

/-- One httpGet entry of the reduced variant's probe walk: a scalar `port`
whose non-empty text parses as an integer is range-checked; a text that
does not parse (a named port) is not treated as an error. -/
def checkPortEntry (f : String) (kv : Node × Node) : List String :=
  if kv.1.value == "port" && kv.2.isScalar then
    if kv.2.value ≠ "" then
      match atoi kv.2.value with
      | some p =>
        if p < 1 ∨ p > 65535 then [fmtDiag f kv.2.line "port value out of range"] else []
      | none => []
    else []
  else []

/-- One probe entry of the reduced variant: descend into a mapping-valued
`httpGet` and scan its entries for ports. -/
def checkHttpGetEntry (f : String) (kv : Node × Node) : List String :=
  match kv.2 with
  | .mapping _ entries =>
    if kv.1.value == "httpGet" then entries.flatMap (checkPortEntry f) else []
  | _ => []

/-- validateProbe of the reduced variant: silently ignore a non-mapping
probe, else scan every entry for an httpGet mapping. -/
def validateProbe (f : String) (probeNode : Node) : List String :=
  match probeNode with
  | .mapping _ entries => entries.flatMap (checkHttpGetEntry f)
  | _ => []

end P000

/-- Modelled from the spec: the two accepted platform names for `os`. -/
def specOsName (s : String) : Bool := s == "linux" || s == "windows"

/-- Modelled from the spec: Integer-in-range 1..65535 on a value node —
a scalar carrying the integer-kind tag whose literal digits denote a
number between 1 and 65535. -/
def specPortScalarOk (n : Node) : Bool :=
  n.isScalar && n.tag == "!!int" &&
  (match natOfDigits n.value with
   | some v => decide (1 ≤ v) && decide (v ≤ 65535)
   | none => false)

/-- Modelled from the spec: the remainder after the prefix contains a
colon that is neither its first nor its last character. -/
def interiorColonList (rest : List Char) : Bool :=
  ((rest.drop 1).dropLast).contains ':'

/-- Modelled from the spec: Prefixed-tagged-reference — the text starts
with the registry prefix and the substring after it has an interior colon. -/
def specImageOk (img : String) : Bool :=
  goHasPfx img imgPfx && interiorColonList (img.data.drop imgPfx.data.length)

/-- Modelled from the spec: a valid labels mapping — every key node and
every value node is a scalar. -/
def specValidLabels (n : Node) : Bool :=
  match n with
  | .mapping _ entries => entries.all (fun kv => kv.1.isScalar && kv.2.isScalar)
  | _ => false

/-- Modelled from the spec: a valid metadata object — required non-empty
scalar name, optional scalar namespace, optional well-formed labels. -/
def specValidMeta (n : Node) : Bool :=
  n.isMapping &&
  (match P001.getMappingValue n "name" with
   | some nm => nm.isScalar && !(nm.value == "")
   | none => false) &&
  (match P001.getMappingValue n "namespace" with
   | some ns => ns.isScalar
   | none => true) &&
  (match P001.getMappingValue n "labels" with
   | some lb => specValidLabels lb
   | none => true)

/-- Modelled from the spec: a valid os field — a bare scalar naming an
accepted platform, or a mapping whose required scalar name does. -/
def specValidOS (n : Node) : Bool :=
  match n with
  | .scalar _ _ v => specOsName v
  | .mapping _ _ =>
    (match P001.getMappingValue n "name" with
     | some nm => nm.isScalar && specOsName nm.value
     | none => false)
  | _ => false

/-- Modelled from the spec: a valid ports entry — an object with a
required in-range integer-kind containerPort and an optional TCP/UDP
protocol. -/
def specValidPortEntry (e : Node) : Bool :=
  match e with
  | .mapping _ _ =>
    (match P001.getMappingValue e "containerPort" with
     | some cp => specPortScalarOk cp
     | none => false) &&
    (match P001.getMappingValue e "protocol" with
     | some pr => pr.isScalar && (pr.value == "TCP" || pr.value == "UDP")
     | none => true)
  | _ => false

/-- Modelled from the spec: a valid probe — a mapping holding a required
httpGet mapping with a required scalar path starting with "/" and a
required in-range integer-kind port. -/
def specValidProbe (p : Node) : Bool :=
  match p with
  | .mapping _ _ =>
    (match P001.getMappingValue p "httpGet" with
     | some hg =>
       hg.isMapping &&
       (match P001.getMappingValue hg "path" with
        | some pa => pa.isScalar && goHasPfx pa.value "/"
        | none => false) &&
       (match P001.getMappingValue hg "port" with
        | some po => specPortScalarOk po
        | none => false)
     | none => false)
  | _ => false

/-- Modelled from the spec: a valid limits/requests section — a mapping
whose optional cpu is an integer-kind digit scalar and whose optional
memory matches the call site's binary-unit pattern. -/
def specValidResSection (r : Node) : Bool :=
  r.isMapping &&
  (match P001.getMappingValue r "cpu" with
   | some c => c.isScalar && c.tag == "!!int" && (natOfDigits c.value).isSome
   | none => true) &&
  (match P001.getMappingValue r "memory" with
   | some m => m.isScalar && memMatch memUnits1 m.value
   | none => true)

/-- Modelled from the spec: a valid resources object — a mapping whose
optional limits and requests sections are well-formed. -/
def specValidResources (r : Node) : Bool :=
  r.isMapping &&
  (match P001.getMappingValue r "limits" with
   | some l => specValidResSection l
   | none => true) &&
  (match P001.getMappingValue r "requests" with
   | some q => specValidResSection q
   | none => true)

/-- Modelled from the spec: a valid container — an object with a
snake_case scalar name, a well-formed image reference, well-formed
optional ports and probes, and a required resources object. -/
def specValidContainer (c : Node) : Bool :=
  c.isMapping &&
  (match P001.getMappingValue c "name" with
   | some n => n.isScalar && snakeCase n.value
   | none => false) &&
  (match P001.getMappingValue c "image" with
   | some i => i.isScalar && specImageOk i.value
   | none => false) &&
  (match P001.getMappingValue c "ports" with
   | some p =>
     (match p with
      | .sequence _ items => items.all specValidPortEntry
      | _ => false)
   | none => true) &&
  (match P001.getMappingValue c "readinessProbe" with
   | some p => specValidProbe p
   | none => true) &&
  (match P001.getMappingValue c "livenessProbe" with
   | some p => specValidProbe p
   | none => true) &&
  (match P001.getMappingValue c "resources" with
   | some r => specValidResources r
   | none => false)

/-- Modelled from the spec: a valid spec object — an optional valid os
and a required non-empty containers array of valid containers. -/
def specValidSpec (s : Node) : Bool :=
  s.isMapping &&
  (match P001.getMappingValue s "os" with
   | some osNode => specValidOS osNode
   | none => true) &&
  (match P001.getMappingValue s "containers" with
   | some c =>
     (match c with
      | .sequence _ items => !items.isEmpty && items.all specValidContainer
      | _ => false)
   | none => false)

/-- Modelled from the spec: a document where every required field is
present with valid shape and content — apiVersion "v1", kind "Pod",
well-formed metadata and spec. -/
def specValidDoc (d : Node) : Bool :=
  d.isMapping &&
  (match P001.getMappingValue d "apiVersion" with
   | some a => a.isScalar && a.value == "v1"
   | none => false) &&
  (match P001.getMappingValue d "kind" with
   | some k => k.isScalar && k.value == "Pod"
   | none => false) &&
  (match P001.getMappingValue d "metadata" with
   | some m => specValidMeta m
   | none => false) &&
  (match P001.getMappingValue d "spec" with
   | some sp => specValidSpec sp
   | none => false)

/-- Removal of every entry of a top-level mapping whose key is the given
scalar text; any other node is unchanged. -/
def removeTopKey (d : Node) (key : String) : Node :=
  match d with
  | .mapping l entries =>
    .mapping l (entries.filter (fun kv => !(kv.1.isScalar && kv.1.value == key)))
  | other => other

/-- Amended probe acceptance: the rules of the richest variant's
validateProbe, with the range check applying only when the integer-kind
port literal parses as a 64-bit machine integer. -/
def amendedProbeOk (p : Node) : Bool :=
  match p with
  | .mapping _ _ =>
    (match P001.getMappingValue p "httpGet" with
     | some hg =>
       hg.isMapping &&
       (match P001.getMappingValue hg "path" with
        | some pa => pa.isScalar && goHasPfx pa.value "/"
        | none => false) &&
       (match P001.getMappingValue hg "port" with
        | some po => po.isScalar && po.tag == "!!int" &&
            (match atoi po.value with
             | some v => decide (1 ≤ v) && decide (v ≤ 65535)
             | none => true)
        | none => false)
     | none => false)
  | _ => false

/-- Amended os acceptance: a bare scalar or a mapping with a scalar name,
whose resolved name is empty or one of the two platform names — an empty
resolved name draws no enum diagnostic. -/
def amendedOsOk (n : Node) : Bool :=
  match n with
  | .scalar _ _ v => v == "" || specOsName v
  | .mapping _ _ =>
    (match P001.getMappingValue n "name" with
     | some nm => nm.isScalar && (nm.value == "" || specOsName nm.value)
     | none => false)
  | _ => false

/-- A probe whose httpGet.port is an integer-kind literal overflowing the
64-bit machine range while its path is well-formed. -/
def probeCx : Node :=
  .mapping 10 [(.scalar 11 "!!str" "httpGet",
    .mapping 11 [(.scalar 12 "!!str" "path", .scalar 12 "!!str" "/healthz"),
                 (.scalar 13 "!!str" "port", .scalar 13 "!!int" "99999999999999999999")])]

/-- A fully valid container node for concrete witnesses. -/
def cxContainer : Node :=
  .mapping 7 [
    (.scalar 7 "!!str" "name", .scalar 7 "!!str" "app_1"),
    (.scalar 8 "!!str" "image", .scalar 8 "!!str" "registry.bigbrother.io/app:latest"),
    (.scalar 9 "!!str" "ports", .sequence 10 [
      .mapping 10 [(.scalar 10 "!!str" "containerPort", .scalar 10 "!!int" "80"),
                   (.scalar 11 "!!str" "protocol", .scalar 11 "!!str" "TCP")]]),
    (.scalar 12 "!!str" "readinessProbe", .mapping 13 [
      (.scalar 13 "!!str" "httpGet", .mapping 14 [
        (.scalar 14 "!!str" "path", .scalar 14 "!!str" "/healthz"),
        (.scalar 15 "!!str" "port", .scalar 15 "!!int" "8080")])]),
    (.scalar 16 "!!str" "resources", .mapping 17 [
      (.scalar 17 "!!str" "limits", .mapping 18 [
        (.scalar 18 "!!str" "cpu", .scalar 18 "!!int" "2"),
        (.scalar 19 "!!str" "memory", .scalar 19 "!!str" "512Mi")]),
      (.scalar 20 "!!str" "requests", .mapping 21 [
        (.scalar 21 "!!str" "cpu", .scalar 21 "!!int" "1"),
        (.scalar 22 "!!str" "memory", .scalar 22 "!!str" "256Mi")])])]

/-- A fully valid Pod document for concrete witnesses. -/
def cxDoc : Node :=
  .mapping 1 [
    (.scalar 1 "!!str" "apiVersion", .scalar 1 "!!str" "v1"),
    (.scalar 2 "!!str" "kind", .scalar 2 "!!str" "Pod"),
    (.scalar 3 "!!str" "metadata", .mapping 4 [
      (.scalar 4 "!!str" "name", .scalar 4 "!!str" "mypod"),
      (.scalar 5 "!!str" "labels", .mapping 6 [
        (.scalar 6 "!!str" "app", .scalar 6 "!!str" "web")])]),
    (.scalar 7 "!!str" "spec", .mapping 7 [
      (.scalar 7 "!!str" "os", .scalar 7 "!!str" "linux"),
      (.scalar 8 "!!str" "containers", .sequence 8 [cxContainer])])]


theorem vmf_some {p : Node} {fl : String} {v : Node}
    (h : P001.getMappingValue p fl = some v) (req : Bool) (f : String) :
    P001.validateMappingField p fl req f = (some v, []) := by
  simp [P001.validateMappingField, h]

theorem vmf_none {p : Node} {fl : String}
    (h : P001.getMappingValue p fl = none) (f : String) :
    P001.validateMappingField p fl true f = (none, [f ++ ": " ++ fl ++ " is required"]) := by
  simp [P001.validateMappingField, h]

theorem atoi_eq_of_natOfDigits {s : String} {v : Nat}
    (h : natOfDigits s = some v) :
    atoi s = if v ≤ int64Max then some (v : Int) else none := by
  unfold natOfDigits natOfDigitList at h
  unfold atoi
  cases hd : s.data with
  | nil => rw [hd] at h; exact absurd h (by simp)
  | cons c cs =>
    rw [hd] at h
    have h' : digitsToNat (c :: cs) 0 = some v := h
    have hdig : digitChar c = true := by
      by_contra hc
      simp only [Bool.not_eq_true] at hc
      simp [digitsToNat, hc] at h'
    have hcm : ¬(c = '-') := by
      intro he; subst he; simp [digitChar] at hdig
    have hcp : ¬(c = '+') := by
      intro he; subst he; simp [digitChar] at hdig
    simp only [hcm, hcp, if_false]
    have h2 : natOfDigitList (c :: cs) = some v := h'
    rw [h2]

theorem portRange_ok {v : Nat} (h1 : 1 ≤ v) (h2 : v ≤ 65535) :
    ¬((v : Int) < 1 ∨ (v : Int) > 65535) := by
  omega

theorem flatMap_nil_of_all {α : Type} {l : List α} {g : α → List String}
    (h : ∀ x ∈ l, g x = []) : l.flatMap g = [] := by
  induction l with
  | nil => rfl
  | cons a t ih =>
    simp only [List.flatMap_cons, h a (by simp), List.nil_append]
    exact ih (fun x hx => h x (by simp [hx]))

theorem vmf_opt {p : Node} {fl : String} (f : String) :
    P001.validateMappingField p fl false f = (P001.getMappingValue p fl, []) := by
  unfold P001.validateMappingField
  cases P001.getMappingValue p fl <;> simp

theorem checkMetaName_nil {o : Option Node}
    (h : (match o with
          | some nm => nm.isScalar && !(nm.value == "")
          | none => true) = true) (f : String) :
    P001.checkMetaName o f = [] := by
  cases o with
  | none => rfl
  | some n =>
    have h' : (n.isScalar && !(n.value == "")) = true := h
    simp only [Bool.and_eq_true, Bool.not_eq_true', beq_eq_false_iff_ne] at h'
    simp [P001.checkMetaName, h'.1, h'.2]

theorem checkMetaNamespace_nil {o : Option Node}
    (h : (match o with | some ns => ns.isScalar | none => true) = true) (f : String) :
    P001.checkMetaNamespace o f = [] := by
  cases o with
  | none => rfl
  | some n =>
    have h' : n.isScalar = true := h
    simp [P001.checkMetaNamespace, h']

theorem checkMetaLabels_nil {o : Option Node}
    (h : (match o with | some lb => specValidLabels lb | none => true) = true) (f : String) :
    P001.checkMetaLabels o f = [] := by
  cases o with
  | none => rfl
  | some n =>
    have h' : specValidLabels n = true := h
    cases n with
    | mapping l es =>
      unfold P001.checkMetaLabels
      refine flatMap_nil_of_all (fun kv hkv => ?_)
      unfold specValidLabels at h'
      rw [List.all_eq_true] at h'
      have hp := h' kv hkv
      simp only [Bool.and_eq_true] at hp
      simp [P001.checkLabelPair, hp.1, hp.2]
    | sequence l its => simp [specValidLabels] at h'
    | scalar l t v => simp [specValidLabels] at h'

theorem validateMetadata_nil {m : Node} (h : specValidMeta m = true) (f : String) :
    P001.validateMetadata (some m) f = [] := by
  unfold specValidMeta at h
  simp only [Bool.and_eq_true] at h
  obtain ⟨⟨⟨h1, h2⟩, h3⟩, h4⟩ := h
  rcases hn : P001.getMappingValue m "name" with _ | nm
  · rw [hn] at h2; exact absurd h2 (by simp)
  rw [hn] at h2
  have e1 := checkMetaName_nil (o := some nm) h2 f
  have e2 := checkMetaNamespace_nil h3 f
  have e3 := checkMetaLabels_nil h4 f
  simp only [P001.validateMetadata, h1, Bool.not_true, vmf_some hn true f, vmf_opt f]
  simp [e1, e2, e3]

theorem atoi_of_natOfDigits {s : String} {v : Nat}
    (h : natOfDigits s = some v) (hle : v ≤ int64Max) : atoi s = some (v : Int) := by
  rw [atoi_eq_of_natOfDigits h, if_pos hle]

theorem atoi_none_of_big {s : String} {v : Nat}
    (h : natOfDigits s = some v) (hgt : ¬(v ≤ int64Max)) : atoi s = none := by
  rw [atoi_eq_of_natOfDigits h, if_neg hgt]

theorem specPort_fields {n : Node} (h : specPortScalarOk n = true) :
    n.isScalar = true ∧ n.tag = "!!int" ∧
      ∃ v : Nat, natOfDigits n.value = some v ∧ 1 ≤ v ∧ v ≤ 65535 := by
  unfold specPortScalarOk at h
  rcases hnd : natOfDigits n.value with _ | v <;> rw [hnd] at h
  · simp at h
  · simp only [Bool.and_eq_true, beq_iff_eq, decide_eq_true_eq] at h
    exact ⟨h.1.1, h.1.2, v, rfl, h.2.1, h.2.2⟩

theorem checkContainerPort_nil {n : Node} (h : specPortScalarOk n = true) (f : String) :
    P001.checkContainerPort (some n) f = [] := by
  obtain ⟨h1, h2, v, hv, hlo, hhi⟩ := specPort_fields h
  have ha : atoi n.value = some (v : Int) :=
    atoi_of_natOfDigits hv (by unfold int64Max; omega)
  simp [P001.checkContainerPort, h1, h2, ha]
  omega

theorem checkProbePort_nil {n : Node} (h : specPortScalarOk n = true) (f : String) :
    P001.checkProbePort (some n) f = [] := by
  obtain ⟨h1, h2, v, hv, hlo, hhi⟩ := specPort_fields h
  have ha : atoi n.value = some (v : Int) :=
    atoi_of_natOfDigits hv (by unfold int64Max; omega)
  simp [P001.checkProbePort, h1, h2, ha]
  omega

theorem checkProtocol_nil {o : Option Node}
    (h : (match o with
          | some pr => pr.isScalar && (pr.value == "TCP" || pr.value == "UDP")
          | none => true) = true) (f : String) :
    P001.checkProtocol o f = [] := by
  cases o with
  | none => rfl
  | some n =>
    have h' : (n.isScalar && (n.value == "TCP" || n.value == "UDP")) = true := h
    simp only [Bool.and_eq_true, Bool.or_eq_true, beq_iff_eq] at h'
    rcases h'.2 with h2 | h2 <;> simp [P001.checkProtocol, h'.1, h2]

theorem checkPortEntry_nil {e : Node} (h : specValidPortEntry e = true) (f : String) :
    P001.checkPortEntry e f = [] := by
  cases e with
  | mapping l es =>
    unfold specValidPortEntry at h
    simp only [Bool.and_eq_true] at h
    obtain ⟨h1, h2⟩ := h
    rcases hcp : P001.getMappingValue (.mapping l es) "containerPort" with _ | cp <;>
      rw [hcp] at h1
    · simp at h1
    · simp only [P001.checkPortEntry, vmf_some hcp true f]
      simp [checkContainerPort_nil h1 f, checkProtocol_nil h2 f]
  | sequence l its => simp [specValidPortEntry] at h
  | scalar l t v => simp [specValidPortEntry] at h

theorem validatePorts_nil {p : Node}
    (h : (match p with
          | .sequence _ items => items.all specValidPortEntry
          | _ => false) = true) (f : String) :
    P001.validatePorts p f = [] := by
  cases p with
  | sequence l items =>
    have h' : items.all specValidPortEntry = true := h
    rw [List.all_eq_true] at h'
    unfold P001.validatePorts
    exact flatMap_nil_of_all (fun e he => checkPortEntry_nil (h' e he) f)
  | mapping l es => simp at h
  | scalar l t v => simp at h

theorem checkProbePath_nil {n : Node} (h1 : n.isScalar = true)
    (h2 : goHasPfx n.value "/" = true) (f : String) :
    P001.checkProbePath (some n) f = [] := by
  simp [P001.checkProbePath, h1, h2]

theorem validateProbe_nil {p : Node} (h : specValidProbe p = true) (nm f : String) :
    P001.validateProbe p nm f = [] := by
  cases p with
  | mapping l es =>
    unfold specValidProbe at h
    rcases hhg : P001.getMappingValue (.mapping l es) "httpGet" with _ | hg <;> rw [hhg] at h
    · simp at h
    simp only [Bool.and_eq_true] at h
    obtain ⟨⟨hm, hpath⟩, hport⟩ := h
    rcases hpa : P001.getMappingValue hg "path" with _ | pa <;> rw [hpa] at hpath
    · simp at hpath
    rcases hpo : P001.getMappingValue hg "port" with _ | po <;> rw [hpo] at hport
    · simp at hport
    simp only [Bool.and_eq_true] at hpath
    simp only [P001.validateProbe, hhg, hm, Bool.not_true,
      vmf_some hpa true f, vmf_some hpo true f]
    simp [checkProbePath_nil hpath.1 hpath.2 f, checkProbePort_nil hport f]
  | sequence l its => simp [specValidProbe] at h
  | scalar l t v => simp [specValidProbe] at h

theorem checkCpu_nil {n : Node} (h1 : n.isScalar = true) (h2 : n.tag = "!!int")
    {v : Nat} (h3 : natOfDigits n.value = some v) (f : String) :
    P001.checkCpu (some n) f = [] := by
  by_cases hle : v ≤ int64Max
  · have ha := atoi_of_natOfDigits h3 hle
    have : ¬((v : Int) < 0) := by omega
    simp [P001.checkCpu, h1, h2, ha, this]
  · have ha := atoi_none_of_big h3 hle
    simp [P001.checkCpu, h1, h2, ha]

theorem checkMemory_nil {n : Node} (h1 : n.isScalar = true)
    (h2 : memMatch memUnits1 n.value = true) (f : String) :
    P001.checkMemory (some n) f = [] := by
  simp [P001.checkMemory, h1, h2]

theorem checkResourceValues_nil {r : Node} (h : specValidResSection r = true) (f : String) :
    P001.checkResourceValues r f = [] := by
  unfold specValidResSection at h
  simp only [Bool.and_eq_true] at h
  obtain ⟨⟨hm, hcpu⟩, hmem⟩ := h
  unfold P001.checkResourceValues
  have e1 : P001.checkCpu (P001.getMappingValue r "cpu") f = [] := by
    rcases hc : P001.getMappingValue r "cpu" with _ | c <;> rw [hc] at hcpu
    · rfl
    · simp only [Bool.and_eq_true, beq_iff_eq, Option.isSome_iff_exists] at hcpu
      obtain ⟨⟨hs, ht⟩, v, hv⟩ := hcpu
      exact checkCpu_nil hs ht hv f
  have e2 : P001.checkMemory (P001.getMappingValue r "memory") f = [] := by
    rcases hmn : P001.getMappingValue r "memory" with _ | mn <;> rw [hmn] at hmem
    · rfl
    · simp only [Bool.and_eq_true] at hmem
      exact checkMemory_nil hmem.1 hmem.2 f
  rw [e1, e2]; rfl

theorem imageFormatOk_of_spec {img : String} (h : specImageOk img = true) :
    P001.imageFormatOk img = true := by
  unfold specImageOk at h
  simp only [Bool.and_eq_true] at h
  obtain ⟨h1, h2⟩ := h
  have hmem : ':' ∈ img.data.drop imgPfx.data.length := by
    unfold interiorColonList at h2
    have := List.elem_iff.mp h2
    exact (List.drop_subset 1 _) (List.dropLast_subset _ this)
  unfold P001.imageFormatOk
  simp only [Bool.and_eq_true, decide_eq_true_eq]
  refine ⟨⟨?_, h1⟩, List.elem_iff.mpr hmem⟩
  by_contra hlen
  rw [List.drop_eq_nil_of_le (by omega)] at hmem
  exact absurd hmem (by simp)

theorem checkContainerName_nil {n : Node} (h1 : n.isScalar = true)
    (h2 : snakeCase n.value = true) (f : String) :
    P001.checkContainerName (some n) f = [] := by
  simp [P001.checkContainerName, h1, h2]

theorem checkImage_nil {n : Node} (h1 : n.isScalar = true)
    (h2 : specImageOk n.value = true) (f : String) :
    P001.checkImage (some n) f = [] := by
  simp [P001.checkImage, h1, imageFormatOk_of_spec h2]

theorem checkOS_nil {n : Node} (h : specValidOS n = true) (f : String) :
    P001.checkOS n f = [] := by
  cases n with
  | scalar l t v =>
    have h' : specOsName v = true := h
    simp only [specOsName, Bool.or_eq_true, beq_iff_eq] at h'
    rcases h' with h' | h' <;>
      simp [P001.checkOS, P001.osStructErrs, P001.osNameOf, h']
  | mapping l es =>
    unfold specValidOS at h
    rcases hn : P001.getMappingValue (.mapping l es) "name" with _ | nm <;> rw [hn] at h
    · simp at h
    simp only [Bool.and_eq_true] at h
    obtain ⟨hs, ho⟩ := h
    simp only [specOsName, Bool.or_eq_true, beq_iff_eq] at ho
    rcases ho with ho | ho <;>
      simp [P001.checkOS, P001.osStructErrs, P001.osNameOf, hn, hs, ho]
  | sequence l its => simp [specValidOS] at h

theorem resSection_isMapping {x : Node} (h : specValidResSection x = true) :
    x.isMapping = true := by
  unfold specValidResSection at h
  simp only [Bool.and_eq_true] at h
  exact h.1.1

theorem checkResourcesSection_nil {r : Node} (h : specValidResources r = true) (f : String) :
    P001.checkResourcesSection (some r) f = [] := by
  unfold specValidResources at h
  simp only [Bool.and_eq_true] at h
  obtain ⟨⟨hm, hl⟩, hq⟩ := h
  cases hln : P001.getMappingValue r "limits" with
  | none =>
    cases hqn : P001.getMappingValue r "requests" with
    | none => simp [P001.checkResourcesSection, hm, hln, hqn]
    | some qn =>
      rw [hqn] at hq
      have hq' : specValidResSection qn = true := hq
      simp [P001.checkResourcesSection, hm, hln, hqn, resSection_isMapping hq',
        checkResourceValues_nil hq' f]
  | some ln =>
    rw [hln] at hl
    have hl' : specValidResSection ln = true := hl
    cases hqn : P001.getMappingValue r "requests" with
    | none =>
      simp [P001.checkResourcesSection, hm, hln, hqn, resSection_isMapping hl',
        checkResourceValues_nil hl' f]
    | some qn =>
      rw [hqn] at hq
      have hq' : specValidResSection qn = true := hq
      simp [P001.checkResourcesSection, hm, hln, hqn, resSection_isMapping hl',
        resSection_isMapping hq', checkResourceValues_nil hl' f,
        checkResourceValues_nil hq' f]

theorem runOpt_nil {o : Option Node} {g : Node → List String}
    (h : ∀ p, o = some p → g p = []) : P001.runOpt o g = [] := by
  cases o with
  | none => rfl
  | some p => exact h p rfl

theorem validateContainer_nil {c : Node} (h : specValidContainer c = true) (f : String) :
    P001.validateContainer c f = [] := by
  cases c with
  | mapping l es =>
    unfold specValidContainer at h
    simp only [Bool.and_eq_true] at h
    obtain ⟨⟨⟨⟨⟨⟨h0, h1⟩, h2⟩, h3⟩, h4⟩, h5⟩, h6⟩ := h
    rcases hn : P001.getMappingValue (.mapping l es) "name" with _ | nm
    · rw [hn] at h1; simp at h1
    rw [hn] at h1
    simp only [Bool.and_eq_true] at h1
    rcases hi : P001.getMappingValue (.mapping l es) "image" with _ | im
    · rw [hi] at h2; simp at h2
    rw [hi] at h2
    simp only [Bool.and_eq_true] at h2
    rcases hr : P001.getMappingValue (.mapping l es) "resources" with _ | rs
    · rw [hr] at h6; simp at h6
    rw [hr] at h6
    have h6' : specValidResources rs = true := h6
    have eports : P001.runOpt (P001.getMappingValue (.mapping l es) "ports")
        (fun p => P001.validatePorts p f) = [] := by
      refine runOpt_nil (fun p hp => ?_)
      rw [hp] at h3
      exact validatePorts_nil h3 f
    have erd : P001.runOpt (P001.getMappingValue (.mapping l es) "readinessProbe")
        (fun p => P001.validateProbe p "readinessProbe" f) = [] := by
      refine runOpt_nil (fun p hp => ?_)
      rw [hp] at h4
      exact validateProbe_nil h4 "readinessProbe" f
    have elv : P001.runOpt (P001.getMappingValue (.mapping l es) "livenessProbe")
        (fun p => P001.validateProbe p "livenessProbe" f) = [] := by
      refine runOpt_nil (fun p hp => ?_)
      rw [hp] at h5
      exact validateProbe_nil h5 "livenessProbe" f
    simp only [P001.validateContainer, vmf_some hn true f, vmf_some hi true f,
      vmf_some hr true f, eports, erd, elv]
    simp [checkContainerName_nil h1.1 h1.2 f, checkImage_nil h2.1 h2.2 f,
      checkResourcesSection_nil h6' f]
  | sequence l its => exact Bool.noConfusion h
  | scalar l t v => exact Bool.noConfusion h

theorem validateSpec_nil {s : Node} (h : specValidSpec s = true) (f : String) :
    P001.validateSpec (some s) f = [] := by
  unfold specValidSpec at h
  simp only [Bool.and_eq_true] at h
  obtain ⟨⟨h0, h1⟩, h2⟩ := h
  have eos : P001.runOpt (P001.getMappingValue s "os")
      (fun osNode => P001.checkOS osNode f) = [] := by
    refine runOpt_nil (fun p hp => ?_)
    rw [hp] at h1
    exact checkOS_nil h1 f
  rcases hc : P001.getMappingValue s "containers" with _ | c
  · rw [hc] at h2; simp at h2
  rw [hc] at h2
  cases c with
  | sequence cl items =>
    have h2' : (!items.isEmpty && items.all specValidContainer) = true := h2
    simp only [Bool.and_eq_true, Bool.not_eq_true', List.all_eq_true] at h2'
    have ebody : items.flatMap (fun e => P001.validateContainer e f) = [] :=
      flatMap_nil_of_all (fun e he => validateContainer_nil (h2'.2 e he) f)
    simp [P001.validateSpec, h0, hc, eos, ebody, h2'.1]
  | mapping cl ces => exact Bool.noConfusion h2
  | scalar cl ct cv => exact Bool.noConfusion h2

theorem validateAPIVersion_nil {a : Node} (h1 : a.isScalar = true)
    (h2 : a.value = "v1") (f : String) : P001.validateAPIVersion (some a) f = [] := by
  simp [P001.validateAPIVersion, h1, h2]

theorem validateKind_nil {k : Node} (h1 : k.isScalar = true)
    (h2 : k.value = "Pod") (f : String) : P001.validateKind (some k) f = [] := by
  simp [P001.validateKind, h1, h2]

theorem validateDocument_nil {d : Node} (h : specValidDoc d = true) (f : String) :
    P001.validateDocument d f = [] := by
  cases d with
  | mapping l es =>
    unfold specValidDoc at h
    simp only [Bool.and_eq_true] at h
    obtain ⟨⟨⟨⟨h0, h1⟩, h2⟩, h3⟩, h4⟩ := h
    rcases ha : P001.getMappingValue (.mapping l es) "apiVersion" with _ | av
    · rw [ha] at h1; simp at h1
    rw [ha] at h1
    simp only [Bool.and_eq_true, beq_iff_eq] at h1
    rcases hk : P001.getMappingValue (.mapping l es) "kind" with _ | kn
    · rw [hk] at h2; simp at h2
    rw [hk] at h2
    simp only [Bool.and_eq_true, beq_iff_eq] at h2
    rcases hm : P001.getMappingValue (.mapping l es) "metadata" with _ | mn
    · rw [hm] at h3; simp at h3
    rw [hm] at h3
    have h3' : specValidMeta mn = true := h3
    rcases hs : P001.getMappingValue (.mapping l es) "spec" with _ | sn
    · rw [hs] at h4; simp at h4
    rw [hs] at h4
    have h4' : specValidSpec sn = true := h4
    simp only [P001.validateDocument, vmf_some ha true f, vmf_some hk true f,
      vmf_some hm true f, vmf_some hs true f]
    simp [validateAPIVersion_nil h1.1 h1.2 f, validateKind_nil h2.1 h2.2 f,
      validateMetadata_nil h3' f, validateSpec_nil h4' f]
  | sequence l its => exact Bool.noConfusion h
  | scalar l t v => exact Bool.noConfusion h

theorem lookupKey_filter_self {es : List (Node × Node)} {k : String} :
    P001.lookupKey (es.filter (fun kv => !(kv.1.isScalar && kv.1.value == k))) k = none := by
  induction es with
  | nil => rfl
  | cons a t ih =>
    obtain ⟨ak, av⟩ := a
    by_cases hc : (ak.isScalar && ak.value == k) = true
    · rw [List.filter_cons_of_neg (by simp [hc])]
      exact ih
    · rw [List.filter_cons_of_pos (by simp [hc])]
      simp only [P001.lookupKey]
      rw [if_neg (by simp_all)]
      exact ih

theorem lookupKey_filter_other {es : List (Node × Node)} {k k' : String} (hne : k' ≠ k) :
    P001.lookupKey (es.filter (fun kv => !(kv.1.isScalar && kv.1.value == k))) k' =
      P001.lookupKey es k' := by
  induction es with
  | nil => rfl
  | cons a t ih =>
    obtain ⟨ak, av⟩ := a
    by_cases hc : (ak.isScalar && ak.value == k) = true
    · rw [List.filter_cons_of_neg (by simp [hc])]
      rw [ih]
      simp only [Bool.and_eq_true, beq_iff_eq] at hc
      have hb : (ak.value == k') = false :=
        beq_eq_false_iff_ne.mpr (by rw [hc.2]; exact fun he => hne he.symm)
      simp only [P001.lookupKey]
      rw [if_neg (by simp [hb])]
    · rw [List.filter_cons_of_pos (by simp [hc])]
      simp only [P001.lookupKey, ih]

theorem gmv_removeTop_self {d : Node} {k : String} :
    P001.getMappingValue (removeTopKey d k) k = none := by
  cases d with
  | mapping l es => exact lookupKey_filter_self
  | sequence l its => rfl
  | scalar l t v => rfl

theorem gmv_removeTop_other {d : Node} {k k' : String} (hne : k' ≠ k) :
    P001.getMappingValue (removeTopKey d k) k' = P001.getMappingValue d k' := by
  cases d with
  | mapping l es => exact lookupKey_filter_other hne
  | sequence l its => rfl
  | scalar l t v => rfl

theorem specValidDoc_fields {d : Node} (h : specValidDoc d = true) :
    d.isMapping = true ∧
    (∃ av, P001.getMappingValue d "apiVersion" = some av ∧
      av.isScalar = true ∧ av.value = "v1") ∧
    (∃ kn, P001.getMappingValue d "kind" = some kn ∧
      kn.isScalar = true ∧ kn.value = "Pod") ∧
    (∃ mn, P001.getMappingValue d "metadata" = some mn ∧ specValidMeta mn = true) ∧
    (∃ sn, P001.getMappingValue d "spec" = some sn ∧ specValidSpec sn = true) := by
  unfold specValidDoc at h
  simp only [Bool.and_eq_true] at h
  obtain ⟨⟨⟨⟨h0, h1⟩, h2⟩, h3⟩, h4⟩ := h
  refine ⟨h0, ?_, ?_, ?_, ?_⟩
  · rcases ha : P001.getMappingValue d "apiVersion" with _ | av <;> rw [ha] at h1
    · simp at h1
    · simp only [Bool.and_eq_true, beq_iff_eq] at h1
      exact ⟨av, rfl, h1.1, h1.2⟩
  · rcases hk : P001.getMappingValue d "kind" with _ | kn <;> rw [hk] at h2
    · simp at h2
    · simp only [Bool.and_eq_true, beq_iff_eq] at h2
      exact ⟨kn, rfl, h2.1, h2.2⟩
  · rcases hm : P001.getMappingValue d "metadata" with _ | mn <;> rw [hm] at h3
    · simp at h3
    · exact ⟨mn, rfl, h3⟩
  · rcases hs : P001.getMappingValue d "spec" with _ | sn <;> rw [hs] at h4
    · simp at h4
    · exact ⟨sn, rfl, h4⟩

theorem validateDocument_removeTop {d : Node} {k : String} (h : specValidDoc d = true)
    (hk : k = "apiVersion" ∨ k = "kind" ∨ k = "metadata" ∨ k = "spec") (f : String) :
    P001.validateDocument (removeTopKey d k) f = [f ++ ": " ++ k ++ " is required"] := by
  obtain ⟨h0, ⟨av, ha, ha1, ha2⟩, ⟨kn, hk2, hk21, hk22⟩, ⟨mn, hm, hm1⟩, ⟨sn, hs, hs1⟩⟩ :=
    specValidDoc_fields h
  cases d with
  | mapping l es =>
    have hself : P001.getMappingValue (removeTopKey (Node.mapping l es) k) k = none :=
      gmv_removeTop_self
    rcases hk with rfl | rfl | rfl | rfl
    · have e2 := (@gmv_removeTop_other (Node.mapping l es) "apiVersion" "kind" (by decide)).trans hk2
      have e3 := (@gmv_removeTop_other (Node.mapping l es) "apiVersion" "metadata" (by decide)).trans hm
      have e4 := (@gmv_removeTop_other (Node.mapping l es) "apiVersion" "spec" (by decide)).trans hs
      simp only [removeTopKey, P001.validateDocument] at hself e2 e3 e4 ⊢
      simp only [vmf_none hself f, vmf_some e2 true f, vmf_some e3 true f,
        vmf_some e4 true f]
      simp [P001.validateAPIVersion, validateKind_nil hk21 hk22 f,
        validateMetadata_nil hm1 f, validateSpec_nil hs1 f]
    · have e1 := (@gmv_removeTop_other (Node.mapping l es) "kind" "apiVersion" (by decide)).trans ha
      have e3 := (@gmv_removeTop_other (Node.mapping l es) "kind" "metadata" (by decide)).trans hm
      have e4 := (@gmv_removeTop_other (Node.mapping l es) "kind" "spec" (by decide)).trans hs
      simp only [removeTopKey, P001.validateDocument] at hself e1 e3 e4 ⊢
      simp only [vmf_none hself f, vmf_some e1 true f, vmf_some e3 true f,
        vmf_some e4 true f]
      simp [P001.validateKind, validateAPIVersion_nil ha1 ha2 f,
        validateMetadata_nil hm1 f, validateSpec_nil hs1 f]
    · have e1 := (@gmv_removeTop_other (Node.mapping l es) "metadata" "apiVersion" (by decide)).trans ha
      have e2 := (@gmv_removeTop_other (Node.mapping l es) "metadata" "kind" (by decide)).trans hk2
      have e4 := (@gmv_removeTop_other (Node.mapping l es) "metadata" "spec" (by decide)).trans hs
      simp only [removeTopKey, P001.validateDocument] at hself e1 e2 e4 ⊢
      simp only [vmf_none hself f, vmf_some e1 true f, vmf_some e2 true f,
        vmf_some e4 true f]
      simp [P001.validateMetadata, validateAPIVersion_nil ha1 ha2 f,
        validateKind_nil hk21 hk22 f, validateSpec_nil hs1 f]
    · have e1 := (@gmv_removeTop_other (Node.mapping l es) "spec" "apiVersion" (by decide)).trans ha
      have e2 := (@gmv_removeTop_other (Node.mapping l es) "spec" "kind" (by decide)).trans hk2
      have e3 := (@gmv_removeTop_other (Node.mapping l es) "spec" "metadata" (by decide)).trans hm
      simp only [removeTopKey, P001.validateDocument] at hself e1 e2 e3 ⊢
      simp only [vmf_none hself f, vmf_some e1 true f, vmf_some e2 true f,
        vmf_some e3 true f]
      simp [P001.validateSpec, validateAPIVersion_nil ha1 ha2 f,
        validateKind_nil hk21 hk22 f, validateMetadata_nil hm1 f]
  | sequence l its => exact Bool.noConfusion h
  | scalar l t v => exact Bool.noConfusion h

theorem checkProbePath_nil_iff (pa : Node) (f : String) :
    (P001.checkProbePath (some pa) f = []) ↔
      (pa.isScalar && goHasPfx pa.value "/") = true := by
  cases hs : pa.isScalar with
  | false => simp [P001.checkProbePath, hs]
  | true =>
    cases hp : goHasPfx pa.value "/" with
    | false => simp [P001.checkProbePath, hs, hp]
    | true => simp [P001.checkProbePath, hs, hp]

theorem checkProbePort_nil_iff (po : Node) (f : String) :
    (P001.checkProbePort (some po) f = []) ↔
      (po.isScalar && po.tag == "!!int" &&
        (match atoi po.value with
         | some v => decide (1 ≤ v) && decide (v ≤ 65535)
         | none => true)) = true := by
  cases hs : po.isScalar with
  | false => simp [P001.checkProbePort, hs]
  | true =>
    by_cases ht : po.tag = "!!int"
    · rcases hao : atoi po.value with _ | v
      · simp [P001.checkProbePort, hs, ht, hao]
      · by_cases hr : (v < 1 ∨ v > 65535)
        · simp only [P001.checkProbePort, hs, ht, hao]
          simp [hr]
          omega
        · simp only [P001.checkProbePort, hs, ht, hao]
          simp [hr]
          omega
    · have ht' : (po.tag == "!!int") = false := by
        simpa using ht
      simp [P001.checkProbePort, hs, ht, ht']

theorem validateProbe_nil_iff (p : Node) (nm f : String) :
    (P001.validateProbe p nm f = []) ↔ amendedProbeOk p = true := by
  cases p with
  | scalar l t v => simp [P001.validateProbe, amendedProbeOk]
  | sequence l its => simp [P001.validateProbe, amendedProbeOk]
  | mapping l es =>
    rcases hg : P001.getMappingValue (.mapping l es) "httpGet" with _ | hgn
    · simp [P001.validateProbe, amendedProbeOk, hg]
    cases hm : hgn.isMapping with
    | false => simp [P001.validateProbe, amendedProbeOk, hg, hm]
    | true =>
      rcases hpa : P001.getMappingValue hgn "path" with _ | pa
      · simp [P001.validateProbe, amendedProbeOk, hg, hm, hpa,
          P001.validateMappingField]
      rcases hpo : P001.getMappingValue hgn "port" with _ | po
      · simp [P001.validateProbe, amendedProbeOk, hg, hm, hpa, hpo,
          P001.validateMappingField]
      simp only [P001.validateProbe, amendedProbeOk, hg, hm,
        vmf_some hpa true f, vmf_some hpo true f, hpa, hpo]
      rw [if_neg (by simp)]
      simp only [List.nil_append, List.append_eq_nil,
        checkProbePath_nil_iff, checkProbePort_nil_iff]
      simp [Bool.and_eq_true]

theorem osEnumBlock_iff (v : String) (ln : Nat) (f : String) :
    ((if v ≠ "" ∧ v ≠ "linux" ∧ v ≠ "windows" then
        [fmtDiag f ln ("os has unsupported value '" ++ v ++ "'")]
      else []) = []) ↔ (v == "" || specOsName v) = true := by
  by_cases hv : (v ≠ "" ∧ v ≠ "linux" ∧ v ≠ "windows")
  · rw [if_pos hv]
    simp only [specOsName]
    constructor
    · intro h; exact absurd h (by simp)
    · intro h
      simp only [Bool.or_eq_true, beq_iff_eq] at h
      rcases h with h | h | h <;> tauto
  · rw [if_neg hv]
    simp only [specOsName]
    constructor
    · intro _
      by_cases h0 : v = ""
      · simp [h0]
      by_cases h1 : v = "linux"
      · simp [h1]
      have h2 : v = "windows" := by tauto
      simp [h2]
    · intro _; trivial

theorem checkOS_nil_iff (n : Node) (f : String) :
    (P001.checkOS n f = []) ↔ amendedOsOk n = true := by
  cases n with
  | scalar l t v =>
    simp only [P001.checkOS, P001.osStructErrs, P001.osNameOf, P001.osErrLine,
      amendedOsOk, List.nil_append]
    exact osEnumBlock_iff v l f
  | sequence l its =>
    simp [P001.checkOS, P001.osStructErrs, P001.osNameOf, amendedOsOk]
  | mapping l es =>
    rcases hn : P001.getMappingValue (.mapping l es) "name" with _ | nmn
    · simp [P001.checkOS, P001.osStructErrs, P001.osNameOf, amendedOsOk, hn]
    cases hs : nmn.isScalar with
    | false =>
      simp [P001.checkOS, P001.osStructErrs, P001.osNameOf, amendedOsOk, hn, hs]
    | true =>
      have e1 : P001.osStructErrs (.mapping l es) f = [] := by
        simp [P001.osStructErrs, hn, hs]
      have e2 : P001.osNameOf (.mapping l es) = nmn.value := by
        simp [P001.osNameOf, hn, hs]
      have e3 : amendedOsOk (.mapping l es) = (nmn.value == "" || specOsName nmn.value) := by
        simp [amendedOsOk, hn, hs]
      unfold P001.checkOS
      rw [e1, e2, e3, List.nil_append]
      exact osEnumBlock_iff nmn.value (P001.osErrLine (.mapping l es)) f

theorem checkImage_nil_iff (img f t : String) (l : Nat) :
    (P001.checkImage (some (.scalar l t img)) f = []) ↔
      (goHasPfx img imgPfx = true ∧
        (img.data.drop imgPfx.data.length).contains ':' = true) := by
  constructor
  · intro he
    by_cases himg : P001.imageFormatOk img = true
    · unfold P001.imageFormatOk at himg
      simp only [Bool.and_eq_true, decide_eq_true_eq] at himg
      exact ⟨himg.1.2, himg.2⟩
    · exfalso
      simp [P001.checkImage, Node.isScalar, Node.value, himg] at he
  · rintro ⟨hp, hc⟩
    have hlen : imgPfx.data.length < img.data.length := by
      by_contra hh
      rw [List.drop_eq_nil_of_le (by omega)] at hc
      simp at hc
    have himg : P001.imageFormatOk img = true := by
      unfold P001.imageFormatOk
      simp only [Bool.and_eq_true, decide_eq_true_eq]
      exact ⟨⟨hlen, hp⟩, hc⟩
    simp [P001.checkImage, Node.isScalar, Node.value, himg]

theorem checkResourceValues_memOnly_iff (f s tk : String) (l lk lm : Nat) :
    (P001.checkResourceValues
        (.mapping l [(.scalar lk tk "memory", .scalar lm "!!str" s)]) f = [])
      ↔ memMatch memUnits1 s = true := by
  cases hmm : memMatch memUnits1 s with
  | true =>
    simp [P001.checkResourceValues, P001.checkCpu, P001.checkMemory,
      P001.getMappingValue, P001.lookupKey, Node.isScalar, Node.value, Node.tag, hmm]
  | false =>
    simp [P001.checkResourceValues, P001.checkCpu, P001.checkMemory,
      P001.getMappingValue, P001.lookupKey, Node.isScalar, Node.value, Node.tag, hmm]

theorem checkMemoryField_iff (f rt s tk : String) (l lk lm : Nat) :
    (MainGo.checkMemoryField
        (.mapping l [(.scalar lk tk "memory", .scalar lm "!!str" s)]) f rt = [])
      ↔ memMatch memUnitsMain s = true := by
  by_cases hs : s = ""
  · subst hs
    simp [MainGo.checkMemoryField, MainGo.findMapKey, MainGo.findEntry, Node.value,
      show memMatch memUnitsMain "" = false from rfl]
  · cases hmm : memMatch memUnitsMain s with
    | true =>
      simp [MainGo.checkMemoryField, MainGo.findMapKey, MainGo.findEntry, Node.value, hs, hmm]
    | false =>
      simp [MainGo.checkMemoryField, MainGo.findMapKey, MainGo.findEntry, Node.value, hs, hmm]

/-- C1: for every port entry whose containerPort value is a string-kind
scalar, the richest variant's validator emits the "containerPort must be
int" format diagnostic whatever the text; for an integer-kind
containerPort whose value parses into 1..65535 it emits no diagnostic
for that field. -/
theorem C1_integer_kind_enforcement (f s : String) (le lm lk lv : Nat) :
    P001.validatePorts
      (.sequence le [.mapping lm
        [(.scalar lk "!!str" "containerPort", .scalar lv "!!str" s)]]) f
      = [fmtDiag f lv "containerPort must be int"] ∧
    (∀ v : Int, atoi s = some v → 1 ≤ v → v ≤ 65535 →
      P001.validatePorts
        (.sequence le [.mapping lm
          [(.scalar lk "!!str" "containerPort", .scalar lv "!!int" s)]]) f
        = []) := by
  refine ⟨rfl, ?_⟩
  intro v hv h1 h2
  simp [P001.validatePorts, P001.checkPortEntry, P001.validateMappingField,
    P001.getMappingValue, P001.lookupKey, P001.checkContainerPort, P001.checkProtocol,
    Node.isScalar, Node.value, Node.tag, hv]
  omega

/-- Witness for C1 at the quoted text "80" (string-kind, diagnosed) and
the integer-kind literal 80 (accepted). -/
theorem C1_witness :
    P001.validatePorts
      (.sequence 1 [.mapping 2
        [(.scalar 3 "!!str" "containerPort", .scalar 3 "!!str" "80")]]) "pod.yaml"
      = [fmtDiag "pod.yaml" 3 "containerPort must be int"] ∧
    P001.validatePorts
      (.sequence 1 [.mapping 2
        [(.scalar 3 "!!str" "containerPort", .scalar 3 "!!int" "80")]]) "pod.yaml"
      = [] :=
  ⟨(C1_integer_kind_enforcement "pod.yaml" "80" 1 2 3 3).1,
   (C1_integer_kind_enforcement "pod.yaml" "80" 1 2 3 3).2 80 (by decide) (by decide)
     (by decide)⟩

/-- C2: every document in which all required fields are present with
valid shape and content yields an empty diagnostic list. -/
theorem C2_valid_document_empty (d : Node) (f : String) (h : specValidDoc d = true) :
    P001.validateDocument d f = [] :=
  validateDocument_nil h f

/-- Witness for C2 at a concrete fully valid Pod document. -/
theorem C2_witness :
    specValidDoc cxDoc = true ∧ P001.validateDocument cxDoc "pod.yaml" = [] :=
  ⟨by decide, C2_valid_document_empty cxDoc "pod.yaml" (by decide)⟩

/-- C3: a document that is valid except for one removed top-level
required field yields exactly the one presence diagnostic for that field,
and no format or type diagnostics for the absent field. -/
theorem C3_missing_required_field (d : Node) (f k : String) (h : specValidDoc d = true)
    (hk : k = "apiVersion" ∨ k = "kind" ∨ k = "metadata" ∨ k = "spec") :
    P001.validateDocument (removeTopKey d k) f = [f ++ ": " ++ k ++ " is required"] :=
  validateDocument_removeTop h hk f

/-- Witness for C3: removing metadata from the concrete valid document
leaves exactly its presence diagnostic. -/
theorem C3_witness :
    P001.validateDocument (removeTopKey cxDoc "metadata") "pod.yaml"
      = ["pod.yaml: metadata is required"] :=
  C3_missing_required_field cxDoc "pod.yaml" "metadata" (by decide) (by decide)

/-- C4: in a two-document file whose first document is valid, the shared
sink holds exactly the second document's diagnostics — in particular the
lone presence diagnostic when the second document misses metadata — and
every document of the list is validated. -/
theorem C4_multi_document (d1 d2 : Node) (f : String)
    (h1 : specValidDoc d1 = true) (h2 : specValidDoc d2 = true) :
    (∀ e : Node, P001.validateAll [d1, e] f = P001.validateDocument e f) ∧
    P001.validateAll [d1, removeTopKey d2 "metadata"] f
      = [f ++ ": metadata is required"] := by
  have hv1 : P001.validateDocument d1 f = [] := validateDocument_nil h1 f
  constructor
  · intro e
    simp [P001.validateAll, hv1]
  · simp only [P001.validateAll, List.flatMap_cons, List.flatMap_nil, hv1,
      validateDocument_removeTop h2 (Or.inr (Or.inr (Or.inl rfl))) f,
      List.nil_append, List.append_nil]
    rw [String.append_assoc, String.append_assoc]
    rfl

/-- Witness for C4 at the concrete valid document paired with its
metadata-stripped copy. -/
theorem C4_witness :
    P001.validateAll [cxDoc, removeTopKey cxDoc "metadata"] "pod.yaml"
      = ["pod.yaml: metadata is required"] :=
  (C4_multi_document cxDoc cxDoc "pod.yaml" (by decide) (by decide)).2

/-- C5 counterexample: the image "registry.bigbrother.io/app:" has no
component after its colon, so the claim demands a format diagnostic, yet
the validator accepts it (the code only requires a colon somewhere after
the prefix). -/
theorem C5_counterexample :
    P001.checkImage (some (.scalar 7 "!!str" "registry.bigbrother.io/app:")) "pod.yaml"
      = [] ∧
    specImageOk "registry.bigbrother.io/app:" = false :=
  ⟨rfl, rfl⟩

/-- C5 (amended): a scalar image value passes validation if and only if
it starts with the registry prefix and the substring after the prefix
contains a colon anywhere, including as its first or last character. -/
theorem C5_amended_image_rule (img f t : String) (l : Nat) :
    (P001.checkImage (some (.scalar l t img)) f = []) ↔
      (goHasPfx img imgPfx = true ∧
        (img.data.drop imgPfx.data.length).contains ':' = true) :=
  checkImage_nil_iff img f t l

/-- C6: at each call site the memory check passes exactly the strings
made of digits followed by one unit of that site's vocabulary — Ki/Mi/Gi
in the richest variant, the full binary and decimal sets in main.go —
with "512Mi" accepted and "512" and "512mi" rejected at both sites. -/
theorem C6_memory_quantity :
    (∀ (f s tk : String) (l lk lm : Nat),
      (P001.checkResourceValues
          (.mapping l [(.scalar lk tk "memory", .scalar lm "!!str" s)]) f = [])
        ↔ memMatch memUnits1 s = true) ∧
    (∀ (f rt s tk : String) (l lk lm : Nat),
      (MainGo.checkMemoryField
          (.mapping l [(.scalar lk tk "memory", .scalar lm "!!str" s)]) f rt = [])
        ↔ memMatch memUnitsMain s = true) ∧
    memMatch memUnits1 "512Mi" = true ∧ memMatch memUnits1 "512" = false ∧
    memMatch memUnits1 "512mi" = false ∧ memMatch memUnitsMain "512Mi" = true ∧
    memMatch memUnitsMain "512" = false ∧ memMatch memUnitsMain "512mi" = false :=
  ⟨fun f s tk l lk lm => checkResourceValues_memOnly_iff f s tk l lk lm,
   fun f rt s tk l lk lm => checkMemoryField_iff f rt s tk l lk lm,
   rfl, rfl, rfl, rfl, rfl, rfl⟩

/-- C7 counterexample: a probe whose httpGet.port is the integer-kind
literal 99999999999999999999 — far above 65535, so the claim demands an
out-of-range diagnostic — draws no diagnostic at all, because the literal
overflows the machine integer conversion and the range check is skipped. -/
theorem C7_counterexample :
    P001.validateProbe probeCx "readinessProbe" "pod.yaml" = [] ∧
    specValidProbe probeCx = false :=
  ⟨rfl, rfl⟩

/-- C7 (amended): a present probe passes validation if and only if it is
a mapping holding an httpGet mapping whose path is a scalar starting with
"/" and whose port is an integer-kind scalar that, whenever its literal
parses as a 64-bit machine integer, lies in 1..65535; each violated rule
otherwise leaves a diagnostic. -/
theorem C7_amended_probe_rule (p : Node) (nm f : String) :
    (P001.validateProbe p nm f = []) ↔ amendedProbeOk p = true :=
  validateProbe_nil_iff p nm f

/-- C8: an integer-kind containerPort of 0 or 65536 yields exactly one
out-of-range diagnostic and the boundary values 1 and 65535 yield none,
in both the richest variant and main.go. -/
theorem C8_port_boundaries (f : String) (le lm lk lv : Nat) :
    P001.validatePorts (.sequence le [.mapping lm
      [(.scalar lk "!!str" "containerPort", .scalar lv "!!int" "0")]]) f
      = [fmtDiag f lv "containerPort value out of range"] ∧
    P001.validatePorts (.sequence le [.mapping lm
      [(.scalar lk "!!str" "containerPort", .scalar lv "!!int" "65536")]]) f
      = [fmtDiag f lv "containerPort value out of range"] ∧
    P001.validatePorts (.sequence le [.mapping lm
      [(.scalar lk "!!str" "containerPort", .scalar lv "!!int" "1")]]) f = [] ∧
    P001.validatePorts (.sequence le [.mapping lm
      [(.scalar lk "!!str" "containerPort", .scalar lv "!!int" "65535")]]) f = [] ∧
    MainGo.checkContainerPort (.scalar lv "!!int" "0") f
      = [fmtDiag f lv "containerPort must be between 1 and 65535"] ∧
    MainGo.checkContainerPort (.scalar lv "!!int" "65536") f
      = [fmtDiag f lv "containerPort must be between 1 and 65535"] ∧
    MainGo.checkContainerPort (.scalar lv "!!int" "1") f = [] ∧
    MainGo.checkContainerPort (.scalar lv "!!int" "65535") f = [] :=
  ⟨rfl, rfl, rfl, rfl, rfl, rfl, rfl, rfl⟩

/-- C9 counterexample: an os given as the empty scalar resolves to a name
that is neither "linux" nor "windows", so the claim demands a diagnostic,
yet the validator emits none (the enum check is skipped for an empty
resolved name). -/
theorem C9_counterexample :
    P001.checkOS (.scalar 5 "!!str" "") "pod.yaml" = [] ∧
    specValidOS (.scalar 5 "!!str" "") = false :=
  ⟨rfl, rfl⟩

/-- C9 (amended): a present os field passes validation if and only if it
is a bare scalar, or a mapping carrying a scalar name, whose resolved
name is empty or one of "linux" and "windows"; an empty resolved name
draws no enum diagnostic. -/
theorem C9_amended_os_rule (n : Node) (f : String) :
    (P001.checkOS n f = []) ↔ amendedOsOk n = true :=
  checkOS_nil_iff n f

/-- C10: a port value whose text fails the machine string-to-integer
conversion — an overflowing integer-kind literal, or a named port in the
reduced variant — draws no out-of-range diagnostic anywhere: the range
check is silently skipped. -/
theorem C10_unparsable_port_skipped (f s : String) (l1 l2 l3 l4 l5 : Nat)
    (h : atoi s = none) :
    P001.checkContainerPort (some (.scalar l1 "!!int" s)) f = [] ∧
    P001.checkProbePort (some (.scalar l2 "!!int" s)) f = [] ∧
    MainGo.checkContainerPort (.scalar l3 "!!int" s) f = [] ∧
    P000.validateProbe f (.mapping l4 [(.scalar l4 "!!str" "httpGet",
      .mapping l4 [(.scalar l5 "!!str" "port", .scalar l5 "!!str" s)])]) = [] := by
  refine ⟨?_, ?_, ?_, ?_⟩
  · simp [P001.checkContainerPort, Node.isScalar, Node.tag, Node.value, h]
  · simp [P001.checkProbePort, Node.isScalar, Node.tag, Node.value, h]
  · simp [MainGo.checkContainerPort, Node.tag, Node.value, h]
  · by_cases hs : s = ""
    · subst hs
      rfl
    · simp [P000.validateProbe, P000.checkHttpGetEntry, P000.checkPortEntry,
        Node.isScalar, Node.value, h, hs]

/-- Witness for C10 at the overflowing literal 99999999999999999999 and
the named port "http". -/
theorem C10_witness :
    P001.checkContainerPort (some (.scalar 1 "!!int" "99999999999999999999")) "pod.yaml"
      = [] ∧
    P000.validateProbe "pod.yaml" (.mapping 4 [(.scalar 4 "!!str" "httpGet",
      .mapping 4 [(.scalar 5 "!!str" "port", .scalar 5 "!!str" "http")])]) = [] :=
  ⟨(C10_unparsable_port_skipped "pod.yaml" "99999999999999999999" 1 2 3 4 5 (by decide)).1,
   (C10_unparsable_port_skipped "pod.yaml" "http" 1 2 3 4 5 (by decide)).2.2.2⟩
